import Mathlib

/-!
# Verification of the todo CLI (`src/todo.ts`)

Shallow embedding of the task-list manager. The storage file is modelled by
its decoded content: `Store = Option (List Task)`, where `none` is an absent
file and `some ts` a file that decodes to the task list `ts` (the JSON
encode/decode layer performed by the platform's `JSON.stringify`/`JSON.parse`
is external to the repository and is abstracted away; the fatal path on a
malformed existing file is therefore not represented). The external date
libraries (`chrono.parseDate`, `new Date(...)`, `toISOString`,
`toLocaleString`) are out of scope per the specification and are modelled as
an oracle record `DateOracle`. Timestamps are `Int` milliseconds since the
epoch; a JS `NaN` result of `getTime()` or `parseInt` is modelled by
`Option`/`JsNum.nan`. Console output is collected as a `List String`, and a
`setTimeout` registration is modelled by returning the callback's task.
-/

set_option autoImplicit false

namespace Todo

/-- `interface Task`: the task record, `reminderTime` stored as an ISO string
(`todo.ts` lines 10-13). -/
structure Task where
  text : String
  reminderTime : Option String := none
  deriving DecidableEq, Repr, Inhabited

/-- The storage file state: `none` when `tasks.json` is absent, `some ts` when
it is present and decodes to `ts`. -/
abbrev Store := Option (List Task)

/-- `readTasks` (`todo.ts` lines 18-24): empty list when the file does not
exist, otherwise the decoded content. -/
def readTasks (fs : Store) : List Task :=
  match fs with
  | none => []
  | some tasks => tasks

/-- `saveTasks` (`todo.ts` lines 27-29): overwrites the file with the full
serialized sequence. -/
def saveTasks (tasks : List Task) (_fs : Store) : Store :=
  some tasks

/-- Oracle for the external date libraries (out of scope per the spec):
`chronoParse` is `chrono.parseDate(s)` (`none` = null), `dateParse` is
`new Date(s).getTime()` (`none` = NaN), `toISO` is `Date.toISOString`,
`toLocale` is `new Date(s).toLocaleString()`. -/
structure DateOracle where
  chronoParse : String → Option Int
  dateParse : String → Option Int
  toISO : Int → String
  toLocale : String → String

/-- The warning printed by `parseReminder` (`todo.ts` line 45). -/
def warnLine (input : String) : String :=
  "⚠️ Could not parse reminder time: \"" ++ input ++ "\""

/-- `parseReminder` (`todo.ts` lines 32-47): returns the resolved ISO string
(or `none`) together with the console output it printed. `if (!input)` is JS
falsiness: both an absent argument and the empty string return early. -/
def parseReminder (o : DateOracle) (input : Option String) :
    Option String × List String :=
  match input with
  | none => (none, [])
  | some s =>
    if s = "" then (none, [])
    else
      match o.chronoParse s with
      | some parsed => (some (o.toISO parsed), [])
      | none =>
        match o.dateParse s with
        | some isoDate => (some (o.toISO isoDate), [])
        | none => (none, [warnLine s])

/-- `scheduleReminder` (`todo.ts` lines 98-119): returns `some task` when a
one-shot callback for `task` is registered with `setTimeout`, `none` when
nothing is scheduled. `if (!task.reminderTime)` is falsy for a missing field
and for the empty string; a NaN `getTime()` makes `delay > 0` false. -/
def scheduleReminder (o : DateOracle) (now : Int) (task : Task) : Option Task :=
  match task.reminderTime with
  | none => none
  | some rt =>
    if rt = "" then none
    else
      match o.dateParse rt with
      | none => none
      | some reminderDate =>
        if reminderDate - now > 0 then some task else none

/-- The confirmation line printed by `addTask` (`todo.ts` line 63). -/
def addedLine (taskText : String) : String :=
  "✅ Task \"" ++ taskText ++ "\" added!"

/-- The reminder confirmation line printed by `addTask` (`todo.ts` line 65). -/
def reminderSetLine (o : DateOracle) (rt : String) : String :=
  "⏰ Reminder set for " ++ o.toLocale rt

/-- Result of `addTask`: the new file state, the console output in order, and
the `setTimeout` registration if any. -/
structure AddResult where
  fs : Store
  output : List String
  scheduled : Option Task
  deriving Repr, DecidableEq

/-- `addTask` (`todo.ts` lines 50-67): read, parse the reminder, build the new
task (the `reminderTime` field is set and a callback scheduled only when the
parsed value is truthy), append, save, print. -/
def addTask (o : DateOracle) (now : Int) (taskText : String)
    (reminderInput : Option String) (fs : Store) : AddResult :=
  let tasks := readTasks fs
  let pr := parseReminder o reminderInput
  match pr.1 with
  | some rt =>
    if rt = "" then
      { fs := saveTasks (tasks ++ [{ text := taskText }]) fs
        output := pr.2 ++ [addedLine taskText]
        scheduled := none }
    else
      let newTask : Task := { text := taskText, reminderTime := some rt }
      { fs := saveTasks (tasks ++ [newTask]) fs
        output := pr.2 ++ [addedLine taskText, reminderSetLine o rt]
        scheduled := scheduleReminder o now newTask }
  | none =>
    { fs := saveTasks (tasks ++ [{ text := taskText }]) fs
      output := pr.2 ++ [addedLine taskText]
      scheduled := none }

/-- The reminder suffix of a listed line (`todo.ts` lines 78-80); the ternary
condition `task.reminderTime ?` is falsy for a missing field and for `""`. -/
def reminderSuffix (o : DateOracle) (task : Task) : String :=
  match task.reminderTime with
  | none => ""
  | some rt => if rt = "" then "" else " (Reminder: " ++ o.toLocale rt ++ ")"

/-- One numbered line of `list` output for 1-based index `n`
(`todo.ts` line 81). -/
def numberedLine (o : DateOracle) (n : Nat) (task : Task) : String :=
  toString n ++ ". " ++ task.text ++ reminderSuffix o task

/-- The body of `tasks.forEach((task, index) => console.log(...))`
(`todo.ts` lines 77-82), rendering tasks with 0-based counter `i`. -/
def renderFrom (o : DateOracle) (i : Nat) : List Task → List String
  | [] => []
  | task :: rest => numberedLine o (i + 1) task :: renderFrom o (i + 1) rest

/-- Result of `listTasks`: the (unchanged) file state and the output. -/
structure ListResult where
  fs : Store
  output : List String
  deriving Repr, DecidableEq

/-- `listTasks` (`todo.ts` lines 70-83). -/
def listTasks (o : DateOracle) (fs : Store) : ListResult :=
  let tasks := readTasks fs
  if tasks.length = 0 then
    { fs := fs, output := ["No tasks available."] }
  else
    { fs := fs, output := "📋 Your tasks:" :: renderFrom o 0 tasks }

/-- A JS number as produced by `parseInt`: an integer or `NaN`. -/
inductive JsNum where
  | nan : JsNum
  | int : Int → JsNum
  deriving DecidableEq, Repr

/-- `n - 1` on JS numbers: `NaN - 1` is `NaN`. -/
def jsPred : JsNum → JsNum
  | JsNum.nan => JsNum.nan
  | JsNum.int i => JsNum.int (i - 1)

/-- The start position `Array.prototype.splice` actually uses for a list of
length `len`: `NaN` becomes `0`, a negative start counts from the end clamped
at `0`, a start beyond the end is clamped to `len`. -/
def spliceStart (len : Nat) : JsNum → Nat
  | JsNum.nan => 0
  | JsNum.int i => if i < 0 then ((len : Int) + i).toNat else min i.toNat len

/-- The confirmation line printed by `removeTask` (`todo.ts` line 94). -/
def removedLine (taskText : String) : String :=
  "🗑️ Task \"" ++ taskText ++ "\" removed!"

/-- Result of `removeTask`: file state, output, and whether the final
`removedTask[0].text` access threw (a TypeError on `undefined`, which happens
when `splice` removed nothing; the save has already occurred by then). -/
structure RemoveResult where
  fs : Store
  output : List String
  crashed : Bool
  deriving Repr, DecidableEq

/-- `removeTask` (`todo.ts` lines 86-95). The bounds check
`index < 1 || index > tasks.length` is false when `index` is `NaN` (every
comparison with `NaN` is false), so `NaN` falls through to
`tasks.splice(NaN - 1, 1)`, which splices from position `0`. -/
def removeTask (index : JsNum) (fs : Store) : RemoveResult :=
  let tasks := readTasks fs
  let invalid : Bool :=
    match index with
    | JsNum.nan => false
    | JsNum.int i => decide (i < 1) || decide (i > (tasks.length : Int))
  if invalid then
    { fs := fs, output := ["Invalid task index!"], crashed := false }
  else
    let start := spliceStart tasks.length (jsPred index)
    let removedTask := (tasks.drop start).take 1
    let remaining := tasks.take start ++ tasks.drop (start + 1)
    match removedTask with
    | [] => { fs := saveTasks remaining fs, output := [], crashed := true }
    | r :: _ =>
      { fs := saveTasks remaining fs
        output := [removedLine r.text]
        crashed := false }

/-- `rescheduleAllReminders` (`todo.ts` lines 122-125): the callbacks
registered at startup, one per task whose reminder is still in the future. -/
def rescheduleAllReminders (o : DateOracle) (now : Int) (fs : Store) :
    List Task :=
  (readTasks fs).filterMap (scheduleReminder o now)

/-- The value of `digitsVal` accumulated left to right, as `parseInt` does. -/
def digitsVal (ds : List Char) : Nat :=
  ds.foldl (fun acc c => acc * 10 + (c.toNat - 48)) 0

/-- `parseInt(s, 10)`: skip leading whitespace, read an optional sign, then
the longest prefix of decimal digits; `NaN` when there are none. (The JS
whitespace set is approximated by `Char.isWhitespace`; the inputs of interest
here contain only ASCII whitespace.) -/
def parseIntJs (s : String) : JsNum :=
  let cs := s.data.dropWhile Char.isWhitespace
  let neg : Bool := cs.head? = some '-'
  let body := if cs.head? = some '-' ∨ cs.head? = some '+' then cs.tail else cs
  let digits := body.takeWhile Char.isDigit
  if digits.isEmpty then JsNum.nan
  else if neg then JsNum.int (-(digitsVal digits : Int))
  else JsNum.int (digitsVal digits)

/-- The usage block printed on an unrecognized one-shot command
(`todo.ts` lines 191-195). -/
def usageLines : List String :=
  ["Usage:",
   "  npx ts-node src/todo.ts add <task> [reminderTime]",
   "  npx ts-node src/todo.ts list",
   "  npx ts-node src/todo.ts remove <index>",
   "  npx ts-node src/todo.ts            # interactive mode"]

/-- JS truthiness of `args[1]`: present and non-empty. -/
def argTruthy : Option String → Bool
  | none => false
  | some s => s ≠ ""

/-- Result of one `cli()` invocation: file state, output, any `setTimeout`
registration, whether a TypeError was thrown, and whether interactive mode
was entered instead of a one-shot command. -/
structure CliResult where
  fs : Store
  output : List String
  scheduled : Option Task
  crashed : Bool
  interactive : Bool
  deriving Repr, DecidableEq

/-- `cli` (`todo.ts` lines 170-197): one-shot dispatch on `process.argv`
arguments. Zero arguments enter interactive mode (modelled only by the
`interactive` flag; the interactive loop routes lines to the same
`addTask`/`listTasks`/`removeTask` operations). -/
def cli (o : DateOracle) (now : Int) (args : List String) (fs : Store) :
    CliResult :=
  match args with
  | [] => { fs := fs, output := [], scheduled := none, crashed := false,
            interactive := true }
  | command :: rest =>
    if command = "add" ∧ argTruthy rest.head? = true then
      let taskText := rest.head?.getD ""
      let reminderInput := String.intercalate " " (rest.drop 1)
      let r := addTask o now taskText (some reminderInput) fs
      { fs := r.fs, output := r.output, scheduled := r.scheduled,
        crashed := false, interactive := false }
    else if command = "list" then
      let r := listTasks o fs
      { fs := r.fs, output := r.output, scheduled := none,
        crashed := false, interactive := false }
    else if command = "remove" ∧ argTruthy rest.head? = true then
      let index := parseIntJs (rest.head?.getD "")
      let r := removeTask index fs
      { fs := r.fs, output := r.output, scheduled := none,
        crashed := r.crashed, interactive := false }
    else
      { fs := fs, output := usageLines, scheduled := none,
        crashed := false, interactive := false }

/-- The task that `addTask` constructs for the given text and reminder
input (its `reminderTime` is set only when the parsed reminder is truthy). -/
def newTaskOf (o : DateOracle) (taskText : String)
    (reminderInput : Option String) : Task :=
  match (parseReminder o reminderInput).1 with
  | some rt =>
    if rt = "" then { text := taskText }
    else { text := taskText, reminderTime := some rt }
  | none => { text := taskText }

/-- An add or remove operation, for stating the round-trip property over
whole command sequences. -/
inductive Op where
  | add : String → Option String → Op
  | remove : Int → Op

/-- Run one operation against the store. -/
def runOp (o : DateOracle) (now : Int) (fs : Store) : Op → Store
  | Op.add t r => (addTask o now t r fs).fs
  | Op.remove i => (removeTask (JsNum.int i) fs).fs

/-- Run a sequence of operations against the store. -/
def runOps (o : DateOracle) (now : Int) (fs : Store) : List Op → Store
  | [] => fs
  | op :: ops => runOps o now (runOp o now fs op) ops

/-- The pure in-memory effect of one operation on the task sequence: append
for add; delete at 1-based position `i` for an in-bounds remove, identity for
an out-of-bounds one. -/
def applyOp (o : DateOracle) (ts : List Task) : Op → List Task
  | Op.add t r => ts ++ [newTaskOf o t r]
  | Op.remove i =>
    if 1 ≤ i ∧ i ≤ (ts.length : Int) then
      ts.take (i - 1).toNat ++ ts.drop i.toNat
    else ts

/-- The pure in-memory effect of a sequence of operations. -/
def applyOps (o : DateOracle) (ts : List Task) : List Op → List Task
  | [] => ts
  | op :: ops => applyOps o (applyOp o ts op) ops

/-- A concrete test oracle: `"x"` parses by the natural-language strategy,
`"y"` by direct timestamp construction, everything else fails. -/
def testOracle : DateOracle where
  chronoParse s := if s = "x" then some 5 else none
  dateParse s := if s = "y" then some 7 else none
  toISO t := "iso" ++ toString t
  toLocale s := "loc" ++ s

/-- A concrete test oracle whose input `"p"` resolves to the past timestamp
`-5`, whose ISO form `"iso-5"` parses back to `-5`. -/
def pastOracle : DateOracle where
  chronoParse s := if s = "p" then some (-5) else none
  dateParse s := if s = "iso-5" then some (-5) else none
  toISO t := "iso" ++ toString t
  toLocale s := s

/-! ## Helper lemmas -/

theorem renderFrom_length (o : DateOracle) (i : Nat) (ts : List Task) :
    (renderFrom o i ts).length = ts.length := by
  induction ts generalizing i with
  | nil => rfl
  | cons t rest ih => simp [renderFrom, ih]

theorem renderFrom_getElem? (o : DateOracle) (i j : Nat) (ts : List Task) :
    (renderFrom o i ts)[j]? = (ts[j]?).map (fun t => numberedLine o (i + j + 1) t) := by
  induction ts generalizing i j with
  | nil => simp [renderFrom]
  | cons t rest ih =>
    cases j with
    | zero => simp [renderFrom]
    | succ j' =>
      have h := ih (i + 1) j'
      simp only [renderFrom, List.getElem?_cons_succ]
      rw [h, show i + 1 + j' + 1 = i + (j' + 1) + 1 from by omega]

theorem listTasks_output_succ (o : DateOracle) (fs : Store) (j : Nat) :
    (listTasks o fs).output[j + 1]?
      = ((readTasks fs)[j]?).map (fun t => numberedLine o (j + 1) t) := by
  by_cases h : (readTasks fs).length = 0
  · have hnil : readTasks fs = [] := List.length_eq_zero.mp h
    simp [listTasks, h, hnil]
  · simp only [listTasks, if_neg h]
    rw [List.getElem?_cons_succ]
    simpa using renderFrom_getElem? o 0 j (readTasks fs)

theorem listTasks_output_length (o : DateOracle) (fs : Store)
    (h : (readTasks fs).length ≠ 0) :
    (listTasks o fs).output.length = (readTasks fs).length + 1 := by
  simp [listTasks, h, renderFrom_length]

theorem addTask_fs (o : DateOracle) (now : Int) (T : String)
    (rin : Option String) (fs : Store) :
    (addTask o now T rin fs).fs = some (readTasks fs ++ [newTaskOf o T rin]) := by
  unfold addTask newTaskOf saveTasks
  cases h : (parseReminder o rin).1 with
  | none => simp [h]
  | some rt => by_cases hrt : rt = "" <;> simp [h, hrt]

theorem newTaskOf_text (o : DateOracle) (T : String) (rin : Option String) :
    (newTaskOf o T rin).text = T := by
  unfold newTaskOf
  cases h : (parseReminder o rin).1 with
  | none => rfl
  | some rt => by_cases hrt : rt = "" <;> simp [hrt]

theorem removeTask_int_fs (i : Int) (fs : Store) :
    (removeTask (JsNum.int i) fs).fs =
      if 1 ≤ i ∧ i ≤ ((readTasks fs).length : Int) then
        some ((readTasks fs).take (i - 1).toNat ++ (readTasks fs).drop i.toNat)
      else fs := by
  by_cases h : 1 ≤ i ∧ i ≤ ((readTasks fs).length : Int)
  · have h1 : ¬ i < 1 := by omega
    have h2 : ¬ i > ((readTasks fs).length : Int) := by omega
    have hstart : spliceStart (readTasks fs).length (jsPred (JsNum.int i))
        = (i - 1).toNat := by
      simp only [jsPred, spliceStart]
      rw [if_neg (by omega)]
      omega
    have hsucc : (i - 1).toNat + 1 = i.toNat := by omega
    unfold removeTask
    simp only [h1, h2, decide_eq_true_eq, decide_eq_false_iff_not, not_false_iff,
      Bool.or_self, if_neg, hstart, hsucc]
    rw [if_pos h]
    cases ((readTasks fs).drop ((i - 1).toNat)).take 1 <;> simp [saveTasks]
  · have h' : i < 1 ∨ i > ((readTasks fs).length : Int) := by omega
    unfold removeTask
    rcases h' with h' | h' <;>
      simp [h', if_neg h]

theorem erase_getElem?_ge {α : Type} (ts : List α) (i j : Nat)
    (h1 : 1 ≤ i) (h2 : i ≤ ts.length) (hj : i - 1 ≤ j) :
    (ts.take (i - 1) ++ ts.drop i)[j]? = ts[j + 1]? := by
  have hlen : (ts.take (i - 1)).length = i - 1 := by
    rw [List.length_take]; omega
  rw [List.getElem?_append_right (by omega), List.getElem?_drop, hlen]
  congr 1
  omega

/-! ## Claims -/

/-- C1: for every stored task list and task text `T`, `add T` appends a task
with text `T` at the end of the list and persists it, and a subsequent `list`
shows `T` at the last position with 1-based index equal to the previous count
plus one. -/
theorem addTask_appends_and_list_shows_last (o : DateOracle) (now : Int)
    (T : String) (rin : Option String) (fs : Store) :
    readTasks (addTask o now T rin fs).fs = readTasks fs ++ [newTaskOf o T rin] ∧
    (newTaskOf o T rin).text = T ∧
    (listTasks o (addTask o now T rin fs).fs).output.getLast?
      = some (numberedLine o ((readTasks fs).length + 1) (newTaskOf o T rin)) := by
  have hread : readTasks (addTask o now T rin fs).fs
      = readTasks fs ++ [newTaskOf o T rin] := by
    rw [addTask_fs]; rfl
  refine ⟨hread, newTaskOf_text o T rin, ?_⟩
  have hlen : (readTasks (addTask o now T rin fs).fs).length
      = (readTasks fs).length + 1 := by
    rw [hread]; simp
  have hne : (readTasks (addTask o now T rin fs).fs).length ≠ 0 := by omega
  rw [List.getLast?_eq_getElem?, listTasks_output_length o _ hne, hlen,
    show (readTasks fs).length + 1 + 1 - 1 = (readTasks fs).length + 1 from by omega,
    listTasks_output_succ, hread]
  simp

/-- C2: reading the store after `saveTasks ts` yields exactly `ts`, and after
any sequence of adds and removes the loaded store equals the pure in-memory
sequence produced by the same operations. -/
theorem save_read_roundtrip (o : DateOracle) (now : Int) (ts : List Task)
    (fs : Store) (ops : List Op) :
    readTasks (saveTasks ts fs) = ts ∧
    readTasks (runOps o now fs ops) = applyOps o (readTasks fs) ops := by
  have hop : ∀ (fs' : Store) (op : Op),
      readTasks (runOp o now fs' op) = applyOp o (readTasks fs') op := by
    intro fs' op
    cases op with
    | add t r => rw [runOp, addTask_fs]; rfl
    | remove i =>
      simp only [runOp, applyOp]
      rw [removeTask_int_fs]
      by_cases h : 1 ≤ i ∧ i ≤ ((readTasks fs').length : Int)
      · rw [if_pos h, if_pos h]; rfl
      · rw [if_neg h, if_neg h]
  refine ⟨rfl, ?_⟩
  induction ops generalizing fs with
  | nil => rfl
  | cons op ops ih =>
    simp only [runOps, applyOps]
    rw [← hop fs op]
    exact ih _

/-- C3: for every integer index `i` outside `[1, length]`, `remove i` leaves
the stored sequence unchanged (no save is performed) and reports
"Invalid task index!". -/
theorem removeTask_out_of_bounds (i : Int) (fs : Store)
    (h : i < 1 ∨ i > ((readTasks fs).length : Int)) :
    (removeTask (JsNum.int i) fs).fs = fs ∧
    (removeTask (JsNum.int i) fs).output = ["Invalid task index!"] ∧
    (removeTask (JsNum.int i) fs).crashed = false := by
  unfold removeTask
  rcases h with h | h <;> simp [h]

/-- Witness for C3 at index 5 on a one-element store. -/
theorem removeTask_out_of_bounds_witness :
    (removeTask (JsNum.int 5) (some [⟨"a", none⟩])).fs = some [⟨"a", none⟩] ∧
    (removeTask (JsNum.int 5) (some [⟨"a", none⟩])).output
      = ["Invalid task index!"] ∧
    (removeTask (JsNum.int 5) (some [⟨"a", none⟩])).crashed = false :=
  removeTask_out_of_bounds 5 (some [⟨"a", none⟩]) (by decide)

/-- C5: `readTasks` returns the empty sequence (not an error) when the
storage file is absent, and an absent file reads the same as a file holding
the empty task list. -/
theorem readTasks_absent_empty :
    readTasks none = ([] : List Task) ∧
    readTasks none = readTasks (some []) :=
  ⟨rfl, rfl⟩

/-- C9: the `list` operation never writes the storage file — both the
operation itself and its dispatch through `cli` leave the store untouched. -/
theorem listTasks_preserves_store (o : DateOracle) (now : Int) (fs : Store) :
    (listTasks o fs).fs = fs ∧ (cli o now ["list"] fs).fs = fs := by
  have hl : (listTasks o fs).fs = fs := by
    by_cases h : (readTasks fs).length = 0 <;> simp [listTasks, h]
  refine ⟨hl, ?_⟩
  simp only [cli]
  rw [if_neg (by decide), if_pos trivial]
  exact hl

theorem removeTask_in_bounds_result (fs : Store) (i : Nat)
    (h1 : 1 ≤ i) (h2 : i ≤ (readTasks fs).length) :
    removeTask (JsNum.int (i : Int)) fs =
      { fs := some ((readTasks fs).take (i - 1) ++ (readTasks fs).drop i),
        output := [removedLine ((readTasks fs).get ⟨i - 1, by omega⟩).text],
        crashed := false } := by
  have hlt : i - 1 < (readTasks fs).length := by omega
  have hstart : spliceStart (readTasks fs).length (jsPred (JsNum.int (i : Int)))
      = i - 1 := by
    simp only [jsPred, spliceStart]
    rw [if_neg (by omega)]
    omega
  have hdrop : (readTasks fs).drop (i - 1)
      = (readTasks fs).get ⟨i - 1, hlt⟩ :: (readTasks fs).drop (i - 1 + 1) := by
    exact List.drop_eq_getElem_cons hlt
  have hsucc : i - 1 + 1 = i := by omega
  have hno : ¬ ((decide ((i : Int) < 1)
      || decide ((i : Int) > ((readTasks fs).length : Int))) = true) := by
    simp only [Bool.or_eq_true, decide_eq_true_eq]
    omega
  simp only [removeTask]
  rw [if_neg hno, hstart, hdrop, hsucc]
  simp [saveTasks]

/-- C4: for every index `i` in `[1, n]`, `remove i` deletes exactly the
element at position `i`, reports the removed task's text exactly once, and a
subsequent `list` shows every item after position `i` renumbered down by
one. -/
theorem removeTask_in_bounds (o : DateOracle) (fs : Store) (i : Nat)
    (h1 : 1 ≤ i) (h2 : i ≤ (readTasks fs).length) :
    (removeTask (JsNum.int (i : Int)) fs).crashed = false ∧
    readTasks (removeTask (JsNum.int (i : Int)) fs).fs
      = (readTasks fs).take (i - 1) ++ (readTasks fs).drop i ∧
    (∀ t : Task, (readTasks fs)[i - 1]? = some t →
      (removeTask (JsNum.int (i : Int)) fs).output = [removedLine t.text]) ∧
    (∀ j : Nat, i - 1 ≤ j →
      (listTasks o (removeTask (JsNum.int (i : Int)) fs).fs).output[j + 1]?
        = ((readTasks fs)[j + 1]?).map (fun t => numberedLine o (j + 1) t)) := by
  rw [removeTask_in_bounds_result fs i h1 h2]
  refine ⟨rfl, rfl, ?_, ?_⟩
  · intro t ht
    rw [List.getElem?_eq_getElem (by omega : i - 1 < (readTasks fs).length)] at ht
    injection ht with ht'
    rw [← ht']
    rfl
  · intro j hj
    rw [listTasks_output_succ]
    show ((((readTasks fs).take (i - 1) ++ (readTasks fs).drop i))[j]?).map _ = _
    rw [erase_getElem?_ge (readTasks fs) i j h1 h2 hj]

/-- Witness for C4: removing index 1 from a two-task store reports the first
task's text. -/
theorem removeTask_in_bounds_witness :
    (removeTask (JsNum.int ((1 : Nat) : Int))
        (some [⟨"a", none⟩, ⟨"b", none⟩])).output
      = [removedLine (Task.text ⟨"a", none⟩)] :=
  (removeTask_in_bounds testOracle (some [⟨"a", none⟩, ⟨"b", none⟩]) 1
    (by decide) (by decide)).2.2.1 ⟨"a", none⟩ (by decide)

theorem removedLine_ne_invalid (x : String) :
    removedLine x ≠ "Invalid task index!" := by
  intro h
  have h2 := congrArg (fun s => s.data.head?) h
  simp only [removedLine, String.data_append, List.append_assoc] at h2
  rw [List.head?_append_of_ne_nil _ (by decide)] at h2
  exact absurd h2 (by decide)

/-- C10: when the remove command's index argument does not parse as an
integer (`parseInt` yields `NaN`), the bounds check does not reject it, and
on a non-empty task list the splice removes the first task and persists the
shortened list instead of reporting an invalid index. -/
theorem remove_nan_removes_first (o : DateOracle) (now : Int) (fs : Store)
    (s : String) (t : Task) (ts : List Task)
    (hs : s ≠ "") (hn : parseIntJs s = JsNum.nan) (hfs : readTasks fs = t :: ts) :
    (cli o now ["remove", s] fs).fs = some ts ∧
    (cli o now ["remove", s] fs).output = [removedLine t.text] ∧
    "Invalid task index!" ∉ (cli o now ["remove", s] fs).output := by
  have hR : removeTask JsNum.nan fs =
      { fs := some ts, output := [removedLine t.text], crashed := false } := by
    simp only [removeTask, hfs]
    simp [spliceStart, jsPred, saveTasks]
  have hcli : cli o now ["remove", s] fs =
      { fs := some ts, output := [removedLine t.text], scheduled := none,
        crashed := false, interactive := false } := by
    simp only [cli, List.head?_cons, Option.getD_some]
    rw [if_neg (by simp), if_neg (by decide),
      if_pos ⟨trivial, by simp [argTruthy, hs]⟩, hn, hR]
  rw [hcli]
  refine ⟨rfl, rfl, ?_⟩
  intro hmem
  rw [List.mem_singleton] at hmem
  exact removedLine_ne_invalid t.text hmem.symm

/-- Witness for C10: `remove abc` on a one-task store removes the task. -/
theorem remove_nan_removes_first_witness :
    (cli testOracle 0 ["remove", "abc"] (some [⟨"a", none⟩])).fs = some [] ∧
    (cli testOracle 0 ["remove", "abc"] (some [⟨"a", none⟩])).output
      = [removedLine (Task.text ⟨"a", none⟩)] ∧
    "Invalid task index!"
      ∉ (cli testOracle 0 ["remove", "abc"] (some [⟨"a", none⟩])).output :=
  remove_nan_removes_first testOracle 0 (some [⟨"a", none⟩]) "abc" ⟨"a", none⟩ []
    (by decide) (by decide) rfl

/-- C6: `parseReminder` tries natural-language parsing first and direct
timestamp construction second; the first strategy to succeed determines the
result (an ISO string via `toISO`), and the result is `none` when the input
is absent/empty or both strategies fail. -/
theorem parseReminder_strategy_order (o : DateOracle) (s : String) (t u : Int) :
    (parseReminder o none).1 = none ∧
    (parseReminder o (some "")).1 = none ∧
    (s ≠ "" → o.chronoParse s = some t →
      parseReminder o (some s) = (some (o.toISO t), [])) ∧
    (s ≠ "" → o.chronoParse s = none → o.dateParse s = some u →
      parseReminder o (some s) = (some (o.toISO u), [])) ∧
    (s ≠ "" → o.chronoParse s = none → o.dateParse s = none →
      parseReminder o (some s) = (none, [warnLine s])) := by
  refine ⟨rfl, rfl, ?_, ?_, ?_⟩
  · intro hs hc
    simp [parseReminder, hs, hc]
  · intro hs hc hd
    simp [parseReminder, hs, hc, hd]
  · intro hs hc hd
    simp [parseReminder, hs, hc, hd]

/-- Witness for C6: on the test oracle, input `"y"` fails natural-language
parsing and succeeds by direct timestamp construction. -/
theorem parseReminder_strategy_order_witness :
    parseReminder testOracle (some "y") = (some (testOracle.toISO 7), []) :=
  (parseReminder_strategy_order testOracle "y" 0 7).2.2.2.1 (by decide)
    (by decide) (by decide)

/-- Counterexample to C7 as stated: adding task `"t"` with an empty reminder
string adds and persists the task with no `reminderTime`, but emits no
warning line — the output is exactly the confirmation line, and the warning
line for input `""` is not in it. -/
theorem addTask_empty_reminder_cex :
    (addTask testOracle 0 "t" (some "") (some [])).fs
      = some [{ text := "t" }] ∧
    (addTask testOracle 0 "t" (some "") (some [])).output = [addedLine "t"] ∧
    warnLine "" ∉ (addTask testOracle 0 "t" (some "") (some [])).output := by
  decide

/-- C7 amended: for every add with an unparsable non-empty reminder string,
the task is added and persisted with no `reminderTime` field and a warning
line containing the original input is emitted; for an empty reminder string
the task is likewise added with no `reminderTime`, but the output is exactly
the confirmation line, with no warning. -/
theorem addTask_bad_reminder_amended (o : DateOracle) (now : Int)
    (T s : String) (fs : Store) :
    (s ≠ "" → o.chronoParse s = none → o.dateParse s = none →
      readTasks (addTask o now T (some s) fs).fs
        = readTasks fs ++ [{ text := T }] ∧
      (addTask o now T (some s) fs).output = [warnLine s, addedLine T]) ∧
    (readTasks (addTask o now T (some "") fs).fs
        = readTasks fs ++ [{ text := T }] ∧
      (addTask o now T (some "") fs).output = [addedLine T]) := by
  constructor
  · intro hs hc hd
    have hp : parseReminder o (some s) = (none, [warnLine s]) := by
      simp [parseReminder, hs, hc, hd]
    constructor <;> simp [addTask, hp, saveTasks, readTasks]
  · have hp : parseReminder o (some "") = (none, []) := rfl
    constructor <;> simp [addTask, hp, saveTasks, readTasks]

/-- Witness for C7 (amended): on the test oracle, the unparsable input `"z"`
yields the warning followed by the confirmation. -/
theorem addTask_bad_reminder_amended_witness :
    (addTask testOracle 0 "t" (some "z") (some [])).output
      = [warnLine "z", addedLine "t"] :=
  ((addTask_bad_reminder_amended testOracle 0 "t" "z" (some [])).1
    (by decide) (by decide) (by decide)).2

/-- C8: a task whose resolved reminder time is not strictly in the future
(`delay ≤ 0`) gets no scheduled callback, and a task created from a reminder
string recognized as a past timestamp has `reminderTime` set but is never
scheduled — neither at add time nor by any later reschedule. -/
theorem past_reminder_never_fires (o : DateOracle) (now : Int) (task : Task)
    (rt : String) (tm : Int) (s T : String) (u : Int) (fs : Store) :
    (task.reminderTime = some rt → o.dateParse rt = some tm → tm - now ≤ 0 →
      scheduleReminder o now task = none) ∧
    (s ≠ "" → o.chronoParse s = some u → o.toISO u ≠ "" →
      o.dateParse (o.toISO u) = some u → u - now ≤ 0 →
      (newTaskOf o T (some s)).reminderTime = some (o.toISO u) ∧
      (addTask o now T (some s) fs).scheduled = none ∧
      readTasks (addTask o now T (some s) fs).fs
        = readTasks fs ++ [newTaskOf o T (some s)] ∧
      (∀ later : Int, now ≤ later →
        scheduleReminder o later (newTaskOf o T (some s)) = none) ∧
      rescheduleAllReminders o now (some [newTaskOf o T (some s)]) = []) := by
  constructor
  · intro h1 h2 h3
    by_cases hrt : rt = ""
    · simp [scheduleReminder, h1, hrt]
    · simp [scheduleReminder, h1, hrt, h2, show ¬ tm - now > 0 from by omega]
  · intro hs hc hiso hd hu
    have hp : parseReminder o (some s) = (some (o.toISO u), []) := by
      simp [parseReminder, hs, hc]
    have hnt : newTaskOf o T (some s)
        = { text := T, reminderTime := some (o.toISO u) } := by
      simp [newTaskOf, hp, hiso]
    have hsched : ∀ later : Int, now ≤ later →
        scheduleReminder o later (newTaskOf o T (some s)) = none := by
      intro later hl
      rw [hnt]
      simp [scheduleReminder, hiso, hd, show ¬ u - later > 0 from by omega]
    refine ⟨by rw [hnt], ?_, ?_, hsched, ?_⟩
    · simp only [addTask, hp]
      rw [if_neg hiso]
      show scheduleReminder o now { text := T, reminderTime := some (o.toISO u) }
        = none
      rw [← hnt]
      exact hsched now le_rfl
    · rw [addTask_fs]; rfl
    · simp [rescheduleAllReminders, readTasks, hsched now le_rfl]

/-- Witness for C8: on the past oracle, adding `"t"` with reminder `"p"`
(resolving to timestamp `-5`, in the past at time `0`) schedules nothing. -/
theorem past_reminder_never_fires_witness :
    (addTask pastOracle 0 "t" (some "p") (some [])).scheduled = none :=
  ((past_reminder_never_fires pastOracle 0 ⟨"", none⟩ "" 0 "p" "t" (-5)
      (some [])).2
    (by decide) (by decide) (by decide) (by decide) (by decide)).2.1

end Todo
